import Mathlib

/-!
Shallow embedding of the MdImgTail plugin (`src/main.py`), the image
extraction / deduplication / session-accumulation state machine.

Strings are modelled as Lean `String` (lists of characters).  Python's
whitespace class `\s` and `str.strip()` are modelled over their ASCII
members (space, tab, newline, carriage return, vertical tab, form feed);
non-ASCII Unicode whitespace is not modelled, which is irrelevant for every
property considered here.

The regular expression `!\[.*?\]\((https?://[^\)]+)\)` used by the plugin
is embedded as a direct recursive scanner implementing Python `re`
semantics for this particular pattern: leftmost non-overlapping matches,
lazy `.*?` (which does not cross a newline), greedy `[^\)]+` followed by a
literal `)` (equivalently: the maximal run of non-`)` characters), and the
whole match including the capturing group for the URL (scheme included).

`re.sub(r'\n\s*\n', '\n', s)` is embedded likewise: at each newline, the
greedy `\s*` with the final `\n` selects the last newline inside the
maximal whitespace run that follows; the whole match is replaced by a
single newline and scanning resumes after the match.
-/

/-- ASCII approximation of Python's `\s` / `str.strip()` whitespace class. -/
def isPySpace (c : Char) : Bool :=
  c = ' ' || c = '\t' || c = '\n' || c = '\r' || c = '\x0b' || c = '\x0c'

/-- Python `str.strip()`: drop whitespace from both ends. -/
def pyStrip (s : String) : String :=
  ⟨((s.data.dropWhile isPySpace).reverse.dropWhile isPySpace).reverse⟩

/-- Helper for `re.sub(r'\n\s*\n', '\n', ·)`: given the characters after an
initial `\n`, locate the last newline within the leading whitespace run and
return the suffix just after it (`none` when the run contains no newline,
i.e. the pattern does not match here). -/
def dropThroughLastNl : List Char → Option (List Char)
  | [] => none
  | c :: cs =>
    if isPySpace c then
      match dropThroughLastNl cs with
      | some r => some r
      | none => if c = '\n' then some cs else none
    else none

/-- Fuel-indexed scanner for `re.sub(r'\n\s*\n', '\n', ·)`. The fuel is the
length of the list, which each step strictly decreases. -/
def collapseAux : Nat → List Char → List Char
  | 0, l => l
  | _ + 1, [] => []
  | fuel + 1, c :: cs =>
    if c = '\n' then
      match dropThroughLastNl cs with
      | some rest => '\n' :: collapseAux fuel rest
      | none => c :: collapseAux fuel cs
    else c :: collapseAux fuel cs

/-- `re.sub(r'\n\s*\n', '\n', s)` (line 178 / line 200 of the source). -/
def collapseBlank (s : String) : String :=
  ⟨collapseAux s.data.length s.data⟩

/-- Regex fragment `[^\)]+\)`: the maximal run of non-`)` characters (at
least one) followed by `)`. Returns the run and the rest of the input. -/
def matchUrlPart (l : List Char) : Option (List Char × List Char) :=
  let url := l.takeWhile (· != ')')
  match l.dropWhile (· != ')') with
  | ')' :: r => if url.isEmpty then none else some (url, r)
  | _ => none

/-- Regex fragment `(https?://[^\)]+)\)`: scheme plus URL body; the captured
group includes the scheme. -/
def matchSchemeUrl (l : List Char) : Option (List Char × List Char) :=
  match l with
  | 'h' :: 't' :: 't' :: 'p' :: 's' :: ':' :: '/' :: '/' :: r2 =>
    match matchUrlPart r2 with
    | some (u, r) => some ("https://".data ++ u, r)
    | none => none
  | 'h' :: 't' :: 't' :: 'p' :: ':' :: '/' :: '/' :: r2 =>
    match matchUrlPart r2 with
    | some (u, r) => some ("http://".data ++ u, r)
    | none => none
  | _ => none

/-- Regex fragment `\]\((https?://[^\)]+)\)`. -/
def matchTailFrom (l : List Char) : Option (List Char × List Char) :=
  match l with
  | ']' :: '(' :: rest => matchSchemeUrl rest
  | _ => none

/-- Lazy `.*?` before `\]\(...`: try the shortest alt text first, extending
one (non-newline) character at a time. -/
def matchAltThen : List Char → Option (List Char × List Char)
  | [] => none
  | c :: cs =>
    match matchTailFrom (c :: cs) with
    | some r => some r
    | none => if c = '\n' then none else matchAltThen cs

/-- Attempt the whole pattern `!\[.*?\]\((https?://[^\)]+)\)` at the head of
the input; on success return the captured URL and the input after the match. -/
def matchImgAt (l : List Char) : Option (List Char × List Char) :=
  match l with
  | '!' :: '[' :: rest => matchAltThen rest
  | _ => none

/-- Leftmost non-overlapping scan: returns the input with all matches
removed (`re.sub` with empty replacement) and the captured URLs in order
(`re.findall`).  Fuel is the input length, which bounds the number of
single-character steps; every match consumes at least one character. -/
def imgScanAux : Nat → List Char → List Char × List (List Char)
  | 0, l => (l, [])
  | _ + 1, [] => ([], [])
  | fuel + 1, c :: cs =>
    match matchImgAt (c :: cs) with
    | some (url, rest) =>
      let r := imgScanAux fuel rest
      (r.1, url :: r.2)
    | none =>
      let r := imgScanAux fuel cs
      (c :: r.1, r.2)

/-- `self.img_pattern.sub('', s)`. -/
def imgSub (s : String) : String :=
  ⟨(imgScanAux s.data.length s.data).1⟩

/-- `self.img_pattern.findall(s)`: the list of captured URLs. -/
def imgFindall (s : String) : List String :=
  ((imgScanAux s.data.length s.data).2).map (fun l => ⟨l⟩)

/-! ### Data model and engine state (`src/main.py`) -/

/-- One ledger record: the dict
`{'url': image_url, 'key': image_key, 'hover_text': '图片'}` (line 218). -/
structure ImgInfo where
  url : String
  key : String
  hover_text : String
deriving DecidableEq, Repr

/-- Python `dict` lookup `m[k]` / `k in m`, over an association list with
unique keys (Python dicts cannot hold duplicate keys). -/
def dictGet {α : Type} (m : List (String × α)) (k : String) : Option α :=
  match m with
  | [] => none
  | (k2, v) :: rest => if k = k2 then some v else dictGet rest k

/-- Python `dict` assignment `m[k] = v`: update in place when the key is
present (preserving insertion order), append otherwise. -/
def dictSet {α : Type} (m : List (String × α)) (k : String) (v : α) :
    List (String × α) :=
  match m with
  | [] => [(k, v)]
  | (k2, v2) :: rest => if k = k2 then (k2, v) :: rest else (k2, v2) :: dictSet rest k v

/-- Python `del m[k]`: remove the entry for `k` (on unique-key lists,
removing every pair with that key is the same thing). -/
def dictDel {α : Type} (m : List (String × α)) (k : String) : List (String × α) :=
  m.filter (fun p => p.1 != k)

/-- The two module-level dicts `_global_image_cache` (URL → image key) and
`_global_session_images` (session id → ordered list of records). -/
structure PluginState where
  image_cache : List (String × String)
  session_images : List (String × List ImgInfo)
deriving DecidableEq, Repr

/-- Observable side effects of `_upload_image_to_lark`: an HTTP fetch of the
image bytes, a platform media-upload call, and a cache write. -/
inductive UpEvent where
  | fetch (url : String)
  | platformUpload (url : String)
  | cacheWrite (url key : String)
deriving DecidableEq, Repr

/-- `_upload_image_to_lark(image_url, adapter)` (lines 77-133).

The external world is abstracted by two oracles: `fetchOk url` tells whether
downloading the bytes succeeds (status 200, no transport error, lines 42-73),
and `platKey url` gives the platform's reply to the media upload (`some key`
on success, `none` for platform rejection, lines 111-116).  `la` is the
module flag `LARK_AVAILABLE`.  All failure paths (download error, network
error, platform rejection, missing library) are caught at lines 131-133 and
collapse to `none`; the temporary-file plumbing has no observable effect and
is not modelled.  Returns (result, new cache, events). -/
def uploadImageToLark (fetchOk : String → Bool) (platKey : String → Option String)
    (la : Bool) (cache : List (String × String)) (image_url : String) :
    Option String × List (String × String) × List UpEvent :=
  if la = false then (none, cache, [])
  else
    match dictGet cache image_url with
    | some k => (some k, cache, [])
    | none =>
      if fetchOk image_url then
        match platKey image_url with
        | some key =>
          (some key, dictSet cache image_url key,
           [UpEvent.fetch image_url, UpEvent.platformUpload image_url,
            UpEvent.cacheWrite image_url key])
        | none => (none, cache, [UpEvent.fetch image_url, UpEvent.platformUpload image_url])
      else (none, cache, [UpEvent.fetch image_url])

/-- One iteration of the per-match loop of the interim branch
(lines 208-222): skip a URL already recorded for this session (`continue`,
line 213 — no upload attempt at all); otherwise upload, and when the result
is truthy (non-`None` and non-empty, line 216) append
`{'url': image_url, 'key': image_key, 'hover_text': '图片'}` to the
session's list. -/
def uploadStep (fetchOk : String → Bool) (platKey : String → Option String)
    (la : Bool) (session_id : String) (st : PluginState) (image_url : String) :
    PluginState × List UpEvent :=
  let cur := (dictGet st.session_images session_id).getD []
  if image_url ∈ cur.map ImgInfo.url then (st, [])
  else
    let u := uploadImageToLark fetchOk platKey la st.image_cache image_url
    match u.1 with
    | some key =>
      if key = "" then (⟨u.2.1, st.session_images⟩, u.2.2)
      else (⟨u.2.1, dictSet st.session_images session_id
              (cur ++ [⟨image_url, key, "图片"⟩])⟩, u.2.2)
    | none => (⟨u.2.1, st.session_images⟩, u.2.2)

/-- The whole `for image_url in image_matches:` loop (lines 208-222),
threading the global state through `uploadStep` and collecting the events. -/
def uploadLoop (fetchOk : String → Bool) (platKey : String → Option String)
    (la : Bool) (session_id : String) :
    List String → PluginState → PluginState × List UpEvent
  | [], st => (st, [])
  | image_url :: rest, st =>
    let s := uploadStep fetchOk platKey la session_id st image_url
    let r := uploadLoop fetchOk platKey la session_id rest s.1
    (r.1, s.2 ++ r.2)

/-- One rendered image line `f"![{img_info['hover_text']}]({img_info['key']})"`
(line 170). -/
def renderImgLine (i : ImgInfo) : String :=
  "![" ++ i.hover_text ++ "](" ++ i.key ++ ")"

/-- The cleaning pipeline applied to `content` in both branches
(lines 176-179 and 198-201): strip image matches, collapse blank-line runs,
strip surrounding whitespace. -/
def cleanContent (content : String) : String :=
  pyStrip (collapseBlank (imgSub content))

/-- The terminal-branch rendering (lines 168-183) for a non-empty list of
records: cleaned content, then a blank line, then the image lines joined by
newlines — or just the joined image lines when the cleaned content is blank
(the source re-tests `new_content.strip()` at line 180). -/
def terminalRender (content : String) (imgs : List ImgInfo) : String :=
  let new_content := cleanContent content
  if pyStrip new_content ≠ "" then
    new_content ++ "\n\n" ++ String.intercalate "\n" (imgs.map renderImgLine)
  else String.intercalate "\n" (imgs.map renderImgLine)

/-- Lines 204-205: `if session_id not in self.session_images:
self.session_images[session_id] = []`. -/
def interimInit (st : PluginState) (session_id : String) : PluginState :=
  match dictGet st.session_images session_id with
  | some _ => st
  | none => ⟨st.image_cache, dictSet st.session_images session_id []⟩

/-- `process_images(ctx)` (lines 149-225), the transform engine.

Inputs replacing the event context: `isLark` (the adapter is a
`LarkAdapter`), `streamMode` (`reply_mode == 'stream_message'`),
`session_id` (`_get_session_id`), `content` (`ctx.event.response_text`) and
`is_end` (`_is_end_event`).  Output: (new global state, the `add_return`
reply override — `none` when the handler returns without overriding, in
which case the host keeps `content` unchanged — and the upload events).

In the terminal branch, `image_markdowns` is non-empty exactly when the
session's record list is non-empty, so the `if image_markdowns:` guard at
line 174 coincides with the non-emptiness test of line 166. -/
def processImages (fetchOk : String → Bool) (platKey : String → Option String)
    (la : Bool) (isLark streamMode : Bool) (st : PluginState)
    (session_id content : String) (is_end : Bool) :
    PluginState × Option String × List UpEvent :=
  if isLark = false then (st, none, [])
  else if streamMode = false then (st, none, [])
  else if is_end then
    match dictGet st.session_images session_id with
    | none => (st, none, [])
    | some imgs =>
      if imgs = [] then (st, none, [])
      else
        (⟨st.image_cache, dictDel st.session_images session_id⟩,
         some (terminalRender content imgs), [])
  else
    match imgFindall content with
    | [] => (st, none, [])
    | u :: us =>
      let r := uploadLoop fetchOk platKey la session_id (u :: us) (interimInit st session_id)
      (r.1, some (cleanContent content), r.2)

/-! ### Finalize hook (`on_responded_end`, lines 228-314) -/

/-- The adapter's two per-message maps consulted by the finalize hook. -/
structure AdapterState where
  message_id_to_card_id : List (String × String)
  message_id_to_sequence : List (String × Nat)
deriving DecidableEq, Repr

/-- Observable side effect of the finalize hook: one card-settings request
carrying the card id and the sequence number (lines 292-302). -/
inductive EndEvent where
  | settingsSent (card_id : String) (sequence : Nat)
deriving DecidableEq, Repr

/-- `on_responded_end(ctx)` (lines 228-314).

`message_id` is `ctx.event.query.message_event.message_chain.message_id`
(`none` models an exception while reading it — caught by the outer
`try`/`except` — and the empty string models a falsy id, line 250).
`settingsOk` is the platform's response to the settings request; it only
affects logging (lines 304-307), never state or control flow, and the outer
`try`/`except` (lines 246, 313-314) makes the whole hook total.  The
sequence counter is incremented only when an entry for the message already
exists (lines 310-311). -/
def on_responded_end (isLark streamMode : Bool) (message_id : Option String)
    (_settingsOk : Bool) (ad : AdapterState) : AdapterState × List EndEvent :=
  if isLark = false then (ad, [])
  else if streamMode = false then (ad, [])
  else
    match message_id with
    | none => (ad, [])
    | some mid =>
      if mid = "" then (ad, [])
      else
        match dictGet ad.message_id_to_card_id mid with
        | none => (ad, [])
        | some card_id =>
          let current_sequence := (dictGet ad.message_id_to_sequence mid).getD 1
          let ad2 : AdapterState :=
            match dictGet ad.message_id_to_sequence mid with
            | some n =>
              ⟨ad.message_id_to_card_id, dictSet ad.message_id_to_sequence mid (n + 1)⟩
            | none => ad
          (ad2, [EndEvent.settingsSent card_id current_sequence])

/-! ### Observation helpers for the stated properties -/

/-- The URLs currently recorded for a session (in order). -/
def ledgerUrls (st : PluginState) (session_id : String) : List String :=
  ((dictGet st.session_images session_id).getD []).map ImgInfo.url

/-- Invariant of the session ledger: no two records of one session share a
URL. -/
def urlsNodup (m : List (String × List ImgInfo)) : Prop :=
  ∀ p ∈ m, (p.2.map ImgInfo.url).Nodup

instance (m : List (String × List ImgInfo)) : Decidable (urlsNodup m) := by
  unfold urlsNodup; infer_instance

/-- Invariant of the session ledger: every record carries the constant
display text `"图片"`. -/
def hoverOk (m : List (String × List ImgInfo)) : Prop :=
  ∀ p ∈ m, ∀ i ∈ p.2, i.hover_text = "图片"

instance (m : List (String × List ImgInfo)) : Decidable (hoverOk m) := by
  unfold hoverOk; infer_instance

/-! ### Association-list (Python dict) lemmas -/

theorem dictGet_mem {α : Type} {m : List (String × α)} {k : String} {v : α}
    (h : dictGet m k = some v) : (k, v) ∈ m := by
  induction m with
  | nil => cases h
  | cons hd tl ih =>
    obtain ⟨k2, v2⟩ := hd
    by_cases hk : k = k2
    · subst hk
      simp [dictGet] at h
      subst h
      exact List.mem_cons_self _ _
    · simp [dictGet, hk] at h
      exact List.mem_cons_of_mem _ (ih h)

theorem mem_dictSet {α : Type} {m : List (String × α)} {k : String} {v : α}
    {q : String × α} (h : q ∈ dictSet m k v) : q = (k, v) ∨ q ∈ m := by
  induction m with
  | nil => simp [dictSet] at h; exact Or.inl h
  | cons hd tl ih =>
    obtain ⟨k2, v2⟩ := hd
    by_cases hk : k = k2
    · simp [dictSet, hk] at h
      rcases h with h | h
      · exact Or.inl (by rw [h, hk])
      · exact Or.inr (List.mem_cons_of_mem _ h)
    · simp only [dictSet, if_neg hk, List.mem_cons] at h
      rcases h with h | h
      · exact Or.inr (by simp [h])
      · rcases ih h with h' | h'
        · exact Or.inl h'
        · exact Or.inr (List.mem_cons_of_mem _ h')

theorem dictGet_dictSet_self {α : Type} (m : List (String × α)) (k : String) (v : α) :
    dictGet (dictSet m k v) k = some v := by
  induction m with
  | nil => simp [dictSet, dictGet]
  | cons hd tl ih =>
    obtain ⟨k2, v2⟩ := hd
    by_cases hk : k = k2 <;> simp [dictSet, dictGet, hk, ih]

theorem dictGet_dictSet_ne {α : Type} (m : List (String × α)) {k k' : String} (v : α)
    (h : k' ≠ k) : dictGet (dictSet m k v) k' = dictGet m k' := by
  induction m with
  | nil => simp [dictSet, dictGet, h]
  | cons hd tl ih =>
    obtain ⟨k2, v2⟩ := hd
    by_cases hk : k = k2
    · subst hk
      simp [dictSet, dictGet, h]
    · by_cases hk' : k' = k2 <;> simp [dictSet, dictGet, hk, hk', ih]

theorem dictGet_dictDel_self {α : Type} (m : List (String × α)) (k : String) :
    dictGet (dictDel m k) k = none := by
  induction m with
  | nil => rfl
  | cons hd tl ih =>
    obtain ⟨k2, v2⟩ := hd
    by_cases hk : k2 = k
    · simpa [dictDel, List.filter_cons, hk] using ih
    · have : k ≠ k2 := fun h => hk h.symm
      simpa [dictDel, List.filter_cons, hk, dictGet, this] using ih

theorem mem_dictDel {α : Type} {m : List (String × α)} {k : String} {q : String × α}
    (h : q ∈ dictDel m k) : q ∈ m :=
  List.mem_of_mem_filter h

theorem dictSet_of_get_none {α : Type} {m : List (String × α)} {k : String} (v : α)
    (h : dictGet m k = none) : dictSet m k v = m ++ [(k, v)] := by
  induction m with
  | nil => rfl
  | cons hd tl ih =>
    obtain ⟨k2, v2⟩ := hd
    by_cases hk : k = k2
    · simp [dictGet, hk] at h
    · simp only [dictGet, if_neg hk] at h
      simp [dictSet, hk, ih h]

/-! ### Stripping lemmas -/

theorem dropWhile_head_false {p : Char → Bool} :
    ∀ {l x t}, List.dropWhile p l = x :: t → p x = false := by
  intro l
  induction l with
  | nil => intro x t h; cases h
  | cons a as ih =>
    intro x t h
    by_cases hp : p a
    · rw [List.dropWhile_cons_of_pos hp] at h
      exact ih h
    · rw [List.dropWhile_cons_of_neg hp] at h
      cases h
      simpa using hp

theorem dropWhile_dropWhile_self {p : Char → Bool} (l : List Char) :
    List.dropWhile p (List.dropWhile p l) = List.dropWhile p l := by
  cases h : List.dropWhile p l with
  | nil => rfl
  | cons x t =>
    have hx := dropWhile_head_false h
    rw [List.dropWhile_cons_of_neg (by simp [hx])]

theorem strip_core_head {l : List Char} :
    List.dropWhile isPySpace ((l.dropWhile isPySpace).reverse.dropWhile isPySpace).reverse
      = ((l.dropWhile isPySpace).reverse.dropWhile isPySpace).reverse := by
  cases hb : (l.dropWhile isPySpace).reverse.dropWhile isPySpace with
  | nil => simp
  | cons x t =>
    obtain ⟨y, s2, hys⟩ : ∃ y s2, (x :: t).reverse = y :: s2 :=
      List.exists_cons_of_ne_nil (by simp)
    have hsplit : (l.dropWhile isPySpace).reverse.takeWhile isPySpace ++ (x :: t)
        = (l.dropWhile isPySpace).reverse := by
      rw [← hb]
      exact List.takeWhile_append_dropWhile isPySpace _
    have ha2 : l.dropWhile isPySpace
        = (x :: t).reverse ++ ((l.dropWhile isPySpace).reverse.takeWhile isPySpace).reverse := by
      have h3 := congrArg List.reverse hsplit
      rw [List.reverse_append, List.reverse_reverse] at h3
      exact h3.symm
    have hay : l.dropWhile isPySpace
        = y :: (s2 ++ ((l.dropWhile isPySpace).reverse.takeWhile isPySpace).reverse) := by
      conv_lhs => rw [ha2]
      rw [hys, List.cons_append]
    have hy : isPySpace y = false := dropWhile_head_false hay
    rw [hys, List.dropWhile_cons_of_neg (by simp [hy])]

/-- Python `strip()` is idempotent. -/
theorem pyStrip_pyStrip (s : String) : pyStrip (pyStrip s) = pyStrip s := by
  have key : ((((((s.data.dropWhile isPySpace).reverse.dropWhile isPySpace).reverse).dropWhile
        isPySpace).reverse).dropWhile isPySpace).reverse
      = ((s.data.dropWhile isPySpace).reverse.dropWhile isPySpace).reverse := by
    rw [strip_core_head (l := s.data), List.reverse_reverse, dropWhile_dropWhile_self]
  exact congrArg String.mk key

/-- `cleanContent` is already stripped, so the re-test at line 180 of the
source is the plain non-emptiness test of the cleaned content. -/
theorem terminalRender_eq (content : String) (imgs : List ImgInfo) :
    terminalRender content imgs =
      if cleanContent content = "" then String.intercalate "\n" (imgs.map renderImgLine)
      else cleanContent content ++ "\n\n" ++ String.intercalate "\n" (imgs.map renderImgLine) := by
  have h1 : pyStrip (cleanContent content) = cleanContent content := by
    unfold cleanContent
    exact pyStrip_pyStrip _
  show (if pyStrip (cleanContent content) ≠ "" then _ else _) = _
  rw [h1]
  by_cases h : cleanContent content = "" <;> simp [h]

/-! ### Unfolding lemmas for the engine branches -/

theorem processImages_terminal_some (fetchOk : String → Bool)
    (platKey : String → Option String) (la : Bool) (st : PluginState)
    (sid content : String) (imgs : List ImgInfo)
    (h : dictGet st.session_images sid = some imgs) (hne : imgs ≠ []) :
    processImages fetchOk platKey la true true st sid content true =
      (⟨st.image_cache, dictDel st.session_images sid⟩,
       some (terminalRender content imgs), []) := by
  simp [processImages, h, hne]

theorem processImages_terminal_empty (fetchOk : String → Bool)
    (platKey : String → Option String) (la : Bool) (st : PluginState)
    (sid content : String)
    (h : dictGet st.session_images sid = none ∨ dictGet st.session_images sid = some []) :
    processImages fetchOk platKey la true true st sid content true = (st, none, []) := by
  rcases h with h | h <;> simp [processImages, h]

theorem processImages_interim_nil (fetchOk : String → Bool)
    (platKey : String → Option String) (la : Bool) (st : PluginState)
    (sid content : String) (h : imgFindall content = []) :
    processImages fetchOk platKey la true true st sid content false = (st, none, []) := by
  simp [processImages, h]

theorem processImages_interim_cons (fetchOk : String → Bool)
    (platKey : String → Option String) (la : Bool) (st : PluginState)
    (sid content : String) {u : String} {us : List String}
    (h : imgFindall content = u :: us) :
    processImages fetchOk platKey la true true st sid content false =
      ((uploadLoop fetchOk platKey la sid (u :: us) (interimInit st sid)).1,
       some (cleanContent content),
       (uploadLoop fetchOk platKey la sid (u :: us) (interimInit st sid)).2) := by
  simp [processImages, h]

/-! ### Uploader lemmas -/

theorem uploadImageToLark_hit (fetchOk : String → Bool) (platKey : String → Option String)
    (cache : List (String × String)) {url k : String}
    (h : dictGet cache url = some k) :
    uploadImageToLark fetchOk platKey true cache url = (some k, cache, []) := by
  simp [uploadImageToLark, h]

theorem uploadImageToLark_fail (fetchOk : String → Bool) (platKey : String → Option String)
    (la : Bool) (cache : List (String × String)) {url : String}
    (hfail : fetchOk url = false ∨ platKey url = none)
    (hc : dictGet cache url = none) :
    (uploadImageToLark fetchOk platKey la cache url).1 = none ∧
    (uploadImageToLark fetchOk platKey la cache url).2.1 = cache := by
  cases la with
  | false => simp [uploadImageToLark]
  | true =>
    rcases hfail with hf | hp
    · simp [uploadImageToLark, hc, hf]
    · cases hfu : fetchOk url <;> simp [uploadImageToLark, hc, hfu, hp]

theorem uploadImageToLark_cache_shape (fetchOk : String → Bool)
    (platKey : String → Option String) (la : Bool)
    (cache : List (String × String)) (url : String) :
    (uploadImageToLark fetchOk platKey la cache url).2.1 = cache ∨
    ∃ key, (uploadImageToLark fetchOk platKey la cache url).2.1 = dictSet cache url key := by
  cases la with
  | false => exact Or.inl rfl
  | true =>
    cases hg : dictGet cache url with
    | some k => simp [uploadImageToLark, hg]
    | none =>
      cases hfu : fetchOk url with
      | false => simp [uploadImageToLark, hg, hfu]
      | true =>
        cases hp : platKey url with
        | none => simp [uploadImageToLark, hg, hfu, hp]
        | some key =>
          right
          exact ⟨key, by simp [uploadImageToLark, hg, hfu, hp]⟩

/-! ### Step and loop lemmas -/

theorem uploadStep_mem (fetchOk : String → Bool) (platKey : String → Option String)
    (la : Bool) (sid : String) (st : PluginState) {url : String}
    (hmem : url ∈ ((dictGet st.session_images sid).getD []).map ImgInfo.url) :
    uploadStep fetchOk platKey la sid st url = (st, []) := by
  simp [uploadStep, hmem]

theorem uploadStep_notmem_none (fetchOk : String → Bool) (platKey : String → Option String)
    (la : Bool) (sid : String) (st : PluginState) {url : String}
    (hmem : url ∉ ((dictGet st.session_images sid).getD []).map ImgInfo.url)
    (hu : (uploadImageToLark fetchOk platKey la st.image_cache url).1 = none) :
    uploadStep fetchOk platKey la sid st url =
      (⟨(uploadImageToLark fetchOk platKey la st.image_cache url).2.1, st.session_images⟩,
       (uploadImageToLark fetchOk platKey la st.image_cache url).2.2) := by
  simp [uploadStep, hmem, hu]

theorem uploadStep_notmem_blank (fetchOk : String → Bool) (platKey : String → Option String)
    (la : Bool) (sid : String) (st : PluginState) {url : String}
    (hmem : url ∉ ((dictGet st.session_images sid).getD []).map ImgInfo.url)
    (hu : (uploadImageToLark fetchOk platKey la st.image_cache url).1 = some "") :
    uploadStep fetchOk platKey la sid st url =
      (⟨(uploadImageToLark fetchOk platKey la st.image_cache url).2.1, st.session_images⟩,
       (uploadImageToLark fetchOk platKey la st.image_cache url).2.2) := by
  simp [uploadStep, hmem, hu]

theorem uploadStep_notmem_some (fetchOk : String → Bool) (platKey : String → Option String)
    (la : Bool) (sid : String) (st : PluginState) {url key : String}
    (hmem : url ∉ ((dictGet st.session_images sid).getD []).map ImgInfo.url)
    (hu : (uploadImageToLark fetchOk platKey la st.image_cache url).1 = some key)
    (hk : key ≠ "") :
    uploadStep fetchOk platKey la sid st url =
      (⟨(uploadImageToLark fetchOk platKey la st.image_cache url).2.1,
        dictSet st.session_images sid
          (((dictGet st.session_images sid).getD []) ++ [⟨url, key, "图片"⟩])⟩,
       (uploadImageToLark fetchOk platKey la st.image_cache url).2.2) := by
  simp [uploadStep, hmem, hu, hk]

theorem uploadStep_urlsNodup (fetchOk : String → Bool) (platKey : String → Option String)
    (la : Bool) (sid : String) (st : PluginState) (url : String)
    (h : urlsNodup st.session_images) :
    urlsNodup (uploadStep fetchOk platKey la sid st url).1.session_images := by
  by_cases hmem : url ∈ ((dictGet st.session_images sid).getD []).map ImgInfo.url
  · rw [uploadStep_mem fetchOk platKey la sid st hmem]
    exact h
  · cases hu : (uploadImageToLark fetchOk platKey la st.image_cache url).1 with
    | none =>
      rw [uploadStep_notmem_none fetchOk platKey la sid st hmem hu]
      exact h
    | some key =>
      by_cases hk : key = ""
      · subst hk
        rw [uploadStep_notmem_blank fetchOk platKey la sid st hmem hu]
        exact h
      · rw [uploadStep_notmem_some fetchOk platKey la sid st hmem hu hk]
        intro p hp
        rcases mem_dictSet hp with hp1 | hp2
        · subst hp1
          have hcur : (((dictGet st.session_images sid).getD []).map ImgInfo.url).Nodup := by
            cases hg : dictGet st.session_images sid with
            | none => simp
            | some l => simpa using h (sid, l) (dictGet_mem hg)
          simp only [List.map_append, List.map_cons, List.map_nil]
          rw [← List.concat_eq_append]
          exact List.Nodup.concat hmem hcur
        · exact h p hp2

theorem uploadLoop_urlsNodup (fetchOk : String → Bool) (platKey : String → Option String)
    (la : Bool) (sid : String) :
    ∀ (urls : List String) (st : PluginState), urlsNodup st.session_images →
      urlsNodup (uploadLoop fetchOk platKey la sid urls st).1.session_images := by
  intro urls
  induction urls with
  | nil => intro st h; simpa [uploadLoop] using h
  | cons url rest ih =>
    intro st h
    have hstep := uploadStep_urlsNodup fetchOk platKey la sid st url h
    simpa [uploadLoop] using ih _ hstep

theorem uploadStep_hoverOk (fetchOk : String → Bool) (platKey : String → Option String)
    (la : Bool) (sid : String) (st : PluginState) (url : String)
    (h : hoverOk st.session_images) :
    hoverOk (uploadStep fetchOk platKey la sid st url).1.session_images := by
  by_cases hmem : url ∈ ((dictGet st.session_images sid).getD []).map ImgInfo.url
  · rw [uploadStep_mem fetchOk platKey la sid st hmem]
    exact h
  · cases hu : (uploadImageToLark fetchOk platKey la st.image_cache url).1 with
    | none =>
      rw [uploadStep_notmem_none fetchOk platKey la sid st hmem hu]
      exact h
    | some key =>
      by_cases hk : key = ""
      · subst hk
        rw [uploadStep_notmem_blank fetchOk platKey la sid st hmem hu]
        exact h
      · rw [uploadStep_notmem_some fetchOk platKey la sid st hmem hu hk]
        intro p hp
        rcases mem_dictSet hp with hp1 | hp2
        · subst hp1
          intro i hi
          rcases List.mem_append.1 hi with hi1 | hi2
          · cases hg : dictGet st.session_images sid with
            | none => rw [hg] at hi1; cases hi1
            | some l =>
              rw [hg] at hi1
              exact h (sid, l) (dictGet_mem hg) i hi1
          · rw [List.mem_singleton] at hi2
            subst hi2
            rfl
        · exact h p hp2

theorem uploadLoop_hoverOk (fetchOk : String → Bool) (platKey : String → Option String)
    (la : Bool) (sid : String) :
    ∀ (urls : List String) (st : PluginState), hoverOk st.session_images →
      hoverOk (uploadLoop fetchOk platKey la sid urls st).1.session_images := by
  intro urls
  induction urls with
  | nil => intro st h; simpa [uploadLoop] using h
  | cons url rest ih =>
    intro st h
    have hstep := uploadStep_hoverOk fetchOk platKey la sid st url h
    simpa [uploadLoop] using ih _ hstep

theorem uploadStep_fail_preserved (fetchOk : String → Bool) (platKey : String → Option String)
    (la : Bool) (sid : String) {url : String}
    (hfail : fetchOk url = false ∨ platKey url = none) (st : PluginState) (url2 : String)
    (hc : dictGet st.image_cache url = none)
    (hl : url ∉ ((dictGet st.session_images sid).getD []).map ImgInfo.url) :
    dictGet (uploadStep fetchOk platKey la sid st url2).1.image_cache url = none ∧
    url ∉ ((dictGet (uploadStep fetchOk platKey la sid st url2).1.session_images sid).getD
      []).map ImgInfo.url := by
  by_cases hmem : url2 ∈ ((dictGet st.session_images sid).getD []).map ImgInfo.url
  · rw [uploadStep_mem fetchOk platKey la sid st hmem]
    exact ⟨hc, hl⟩
  · by_cases heq : url2 = url
    · subst heq
      have hfl := uploadImageToLark_fail fetchOk platKey la st.image_cache hfail hc
      rw [uploadStep_notmem_none fetchOk platKey la sid st hmem hfl.1]
      rw [hfl.2] at *
      exact ⟨hc, hl⟩
    · have hne : url ≠ url2 := fun h => heq h.symm
      have hcache : dictGet (uploadImageToLark fetchOk platKey la st.image_cache url2).2.1
          url = none := by
        rcases uploadImageToLark_cache_shape fetchOk platKey la st.image_cache url2 with
          hsh | ⟨key, hsh⟩
        · rw [hsh]; exact hc
        · rw [hsh, dictGet_dictSet_ne _ _ hne]; exact hc
      cases hu : (uploadImageToLark fetchOk platKey la st.image_cache url2).1 with
      | none =>
        rw [uploadStep_notmem_none fetchOk platKey la sid st hmem hu]
        exact ⟨hcache, hl⟩
      | some key =>
        by_cases hk : key = ""
        · subst hk
          rw [uploadStep_notmem_blank fetchOk platKey la sid st hmem hu]
          exact ⟨hcache, hl⟩
        · rw [uploadStep_notmem_some fetchOk platKey la sid st hmem hu hk]
          refine ⟨hcache, ?_⟩
          rw [dictGet_dictSet_self]
          simp only [Option.getD_some, List.map_append, List.map_cons, List.map_nil]
          intro hmem2
          rcases List.mem_append.1 hmem2 with h1 | h1
          · exact hl h1
          · rw [List.mem_singleton] at h1
            exact hne h1

theorem uploadLoop_fail_preserved (fetchOk : String → Bool) (platKey : String → Option String)
    (la : Bool) (sid : String) {url : String}
    (hfail : fetchOk url = false ∨ platKey url = none) :
    ∀ (urls : List String) (st : PluginState),
      dictGet st.image_cache url = none →
      url ∉ ((dictGet st.session_images sid).getD []).map ImgInfo.url →
      dictGet (uploadLoop fetchOk platKey la sid urls st).1.image_cache url = none ∧
      url ∉ ((dictGet (uploadLoop fetchOk platKey la sid urls st).1.session_images sid).getD
        []).map ImgInfo.url := by
  intro urls
  induction urls with
  | nil => intro st hc hl; exact ⟨hc, hl⟩
  | cons url2 rest ih =>
    intro st hc hl
    have hstep := uploadStep_fail_preserved fetchOk platKey la sid hfail st url2 hc hl
    exact ih _ hstep.1 hstep.2

theorem interimInit_image_cache (st : PluginState) (sid : String) :
    (interimInit st sid).image_cache = st.image_cache := by
  unfold interimInit
  cases dictGet st.session_images sid <;> rfl

theorem interimInit_ledger (st : PluginState) (sid : String) :
    (dictGet (interimInit st sid).session_images sid).getD []
      = (dictGet st.session_images sid).getD [] := by
  unfold interimInit
  cases hg : dictGet st.session_images sid with
  | some l => simp [hg]
  | none => simp [hg, dictGet_dictSet_self]

theorem interimInit_urlsNodup (st : PluginState) (sid : String)
    (h : urlsNodup st.session_images) : urlsNodup (interimInit st sid).session_images := by
  unfold interimInit
  cases hg : dictGet st.session_images sid with
  | some l => simp only [hg]; exact h
  | none =>
    simp only [hg]
    intro p hp
    rcases mem_dictSet hp with hp1 | hp2
    · subst hp1; simp
    · exact h p hp2

theorem interimInit_hoverOk (st : PluginState) (sid : String)
    (h : hoverOk st.session_images) : hoverOk (interimInit st sid).session_images := by
  unfold interimInit
  cases hg : dictGet st.session_images sid with
  | some l => simp only [hg]; exact h
  | none =>
    simp only [hg]
    intro p hp
    rcases mem_dictSet hp with hp1 | hp2
    · subst hp1; simp
    · exact h p hp2

theorem processImages_preserves_urlsNodup (fetchOk : String → Bool)
    (platKey : String → Option String) (la isLark streamMode : Bool) (st : PluginState)
    (sid content : String) (is_end : Bool) (h : urlsNodup st.session_images) :
    urlsNodup (processImages fetchOk platKey la isLark streamMode st sid content
      is_end).1.session_images := by
  cases isLark with
  | false => exact h
  | true =>
    cases streamMode with
    | false => exact h
    | true =>
      cases is_end with
      | true =>
        cases hg : dictGet st.session_images sid with
        | none =>
          rw [processImages_terminal_empty _ _ _ _ _ _ (Or.inl hg)]
          exact h
        | some imgs =>
          by_cases hne : imgs = []
          · subst hne
            rw [processImages_terminal_empty _ _ _ _ _ _ (Or.inr hg)]
            exact h
          · rw [processImages_terminal_some _ _ _ _ _ _ _ hg hne]
            intro p hp
            exact h p (mem_dictDel hp)
      | false =>
        cases hm : imgFindall content with
        | nil =>
          rw [processImages_interim_nil _ _ _ _ _ _ hm]
          exact h
        | cons u us =>
          rw [processImages_interim_cons _ _ _ _ _ _ hm]
          exact uploadLoop_urlsNodup _ _ _ _ _ _ (interimInit_urlsNodup st sid h)

theorem processImages_preserves_hoverOk (fetchOk : String → Bool)
    (platKey : String → Option String) (la isLark streamMode : Bool) (st : PluginState)
    (sid content : String) (is_end : Bool) (h : hoverOk st.session_images) :
    hoverOk (processImages fetchOk platKey la isLark streamMode st sid content
      is_end).1.session_images := by
  cases isLark with
  | false => exact h
  | true =>
    cases streamMode with
    | false => exact h
    | true =>
      cases is_end with
      | true =>
        cases hg : dictGet st.session_images sid with
        | none =>
          rw [processImages_terminal_empty _ _ _ _ _ _ (Or.inl hg)]
          exact h
        | some imgs =>
          by_cases hne : imgs = []
          · subst hne
            rw [processImages_terminal_empty _ _ _ _ _ _ (Or.inr hg)]
            exact h
          · rw [processImages_terminal_some _ _ _ _ _ _ _ hg hne]
            intro p hp
            exact h p (mem_dictDel hp)
      | false =>
        cases hm : imgFindall content with
        | nil =>
          rw [processImages_interim_nil _ _ _ _ _ _ hm]
          exact h
        | cons u us =>
          rw [processImages_interim_cons _ _ _ _ _ _ hm]
          exact uploadLoop_hoverOk _ _ _ _ _ _ (interimInit_hoverOk st sid h)

/-! ### Claim theorems -/

/-- C1: for every terminal-phase call whose session ledger holds a non-empty
sequence of records, the returned text equals the input content with all
Markdown image matches removed, blank-line runs collapsed to a single
newline and whitespace trimmed, followed by a blank line and the entries
rendered as image lines joined with newlines in ledger order; when the
stripped content is empty, the output is exactly the joined image lines. -/
theorem C1_terminal_appends_ledger_images (fetchOk : String → Bool)
    (platKey : String → Option String) (la : Bool) (st : PluginState)
    (sid content : String) (imgs : List ImgInfo)
    (h : dictGet st.session_images sid = some imgs) (hne : imgs ≠ []) :
    (processImages fetchOk platKey la true true st sid content true).2.1 =
      some (if pyStrip (collapseBlank (imgSub content)) = ""
            then String.intercalate "\n" (imgs.map renderImgLine)
            else pyStrip (collapseBlank (imgSub content)) ++ "\n\n"
                 ++ String.intercalate "\n" (imgs.map renderImgLine)) := by
  rw [processImages_terminal_some fetchOk platKey la st sid content imgs h hne]
  show some (terminalRender content imgs) = _
  rw [terminalRender_eq]
  rfl

/-- C1 witness: terminal content "done" with one ledger entry of key "K1"
and display text "图片" yields the content, a blank line and the image line. -/
theorem C1_witness :
    (processImages (fun _ => false) (fun _ => none) true true true
        ⟨[], [("s", [⟨"u", "K1", "图片"⟩])]⟩ "s" "done" true).2.1 =
      some "done\n\n![图片](K1)" := by
  rw [C1_terminal_appends_ledger_images (fun _ => false) (fun _ => none) true
      ⟨[], [("s", [⟨"u", "K1", "图片"⟩])]⟩ "s" "done" [⟨"u", "K1", "图片"⟩]
      (by decide) (by decide)]
  decide

/-- C2: for every interim-phase call whose content contains at least one
Markdown image match, the engine returns the content with ALL image matches
stripped, blank-line runs collapsed and whitespace trimmed, without
re-appending any image — independently of upload success, cache state or
failure. -/
theorem C2_interim_strips_images (fetchOk : String → Bool)
    (platKey : String → Option String) (la : Bool) (st : PluginState)
    (sid content : String) (h : imgFindall content ≠ []) :
    (processImages fetchOk platKey la true true st sid content false).2.1 =
      some (pyStrip (collapseBlank (imgSub content))) := by
  obtain ⟨u, us, hm⟩ := List.exists_cons_of_ne_nil h
  rw [processImages_interim_cons fetchOk platKey la st sid content hm]
  rfl

/-- C2 witness: the scenario of the spec — one image, upload succeeding with
key "K1": the reply is the stripped text and the ledger now holds exactly
the one record with display text "图片". -/
theorem C2_witness :
    ((processImages (fun _ => true)
        (fun u => if u = "https://x.test/a.png" then some "K1" else none) true true true
        ⟨[], []⟩ "s1" "Look ![cat](https://x.test/a.png) nice" false).2.1 =
      some "Look  nice") ∧
    (processImages (fun _ => true)
        (fun u => if u = "https://x.test/a.png" then some "K1" else none) true true true
        ⟨[], []⟩ "s1" "Look ![cat](https://x.test/a.png) nice" false).1.session_images =
      [("s1", [⟨"https://x.test/a.png", "K1", "图片"⟩])] := by
  constructor
  · rw [C2_interim_strips_images (fun _ => true)
        (fun u => if u = "https://x.test/a.png" then some "K1" else none) true
        ⟨[], []⟩ "s1" "Look ![cat](https://x.test/a.png) nice" (by decide)]
    decide
  · decide

/-- C4: a cache hit returns the identical cached key with zero fetches and
zero platform calls and the cache unchanged; no call ever overwrites an
existing cache entry; and a successful upload on a cache miss performs
exactly one cache write (appending the new entry) alongside its single
fetch and single platform call. -/
theorem C4_cache_memoization (fetchOk : String → Bool)
    (platKey : String → Option String) (cache : List (String × String))
    (url k : String) (h : dictGet cache url = some k) :
    uploadImageToLark fetchOk platKey true cache url = (some k, cache, []) ∧
    (∀ url3 url4 k3, dictGet cache url3 = some k3 →
      dictGet (uploadImageToLark fetchOk platKey true cache url4).2.1 url3 = some k3) ∧
    (∀ url2 key2, dictGet cache url2 = none →
      (uploadImageToLark fetchOk platKey true cache url2).1 = some key2 →
      uploadImageToLark fetchOk platKey true cache url2 =
        (some key2, cache ++ [(url2, key2)],
         [UpEvent.fetch url2, UpEvent.platformUpload url2,
          UpEvent.cacheWrite url2 key2])) := by
  refine ⟨uploadImageToLark_hit fetchOk platKey cache h, ?_, ?_⟩
  · intro url3 url4 k3 h3
    rcases uploadImageToLark_cache_shape fetchOk platKey true cache url4 with
      hsh | ⟨key, hsh⟩
    · rw [hsh]; exact h3
    · by_cases he : url3 = url4
      · subst he
        rw [uploadImageToLark_hit fetchOk platKey cache h3]
        exact h3
      · rw [hsh, dictGet_dictSet_ne _ _ he]
        exact h3
  · intro url2 key2 h2 hres
    cases hfu : fetchOk url2 with
    | false =>
      have hn := (uploadImageToLark_fail fetchOk platKey true cache (Or.inl hfu) h2).1
      rw [hn] at hres
      cases hres
    | true =>
      cases hp : platKey url2 with
      | none =>
        have hn := (uploadImageToLark_fail fetchOk platKey true cache (Or.inr hp) h2).1
        rw [hn] at hres
        cases hres
      | some key =>
        have hres2 : (uploadImageToLark fetchOk platKey true cache url2).1 = some key := by
          simp [uploadImageToLark, h2, hfu, hp]
        rw [hres2] at hres
        cases hres
        simp [uploadImageToLark, h2, hfu, hp, dictSet_of_get_none key2 h2]

/-- C4 witness: with "u" already cached at key "K", a repeated upload
returns "K" with no events and the cache unchanged. -/
theorem C4_witness :
    uploadImageToLark (fun _ => true) (fun _ => some "K2") true [("u", "K")] "u" =
      (some "K", [("u", "K")], []) :=
  (C4_cache_memoization (fun _ => true) (fun _ => some "K2") [("u", "K")]
    "u" "K" (by decide)).1

/-- C3: the session-ledger invariant — no two records of one session share a
URL — is preserved by every call of the transform engine (an already
recorded URL is skipped at append time). -/
theorem C3_ledger_urls_nodup (fetchOk : String → Bool)
    (platKey : String → Option String) (la isLark streamMode : Bool)
    (st : PluginState) (sid content : String) (is_end : Bool)
    (h : urlsNodup st.session_images) :
    urlsNodup (processImages fetchOk platKey la isLark streamMode st sid content
      is_end).1.session_images :=
  processImages_preserves_urlsNodup fetchOk platKey la isLark streamMode st sid content
    is_end h

/-- C3 witness: two interim chunks of the same session referencing the same
URL — after the second call the invariant holds, the second call performed
no upload call (no events at all), and the ledger holds exactly one entry
for that URL. -/
theorem C3_witness :
    urlsNodup ((processImages (fun _ => true) (fun _ => some "KX") true true true
        ((processImages (fun _ => true) (fun _ => some "KX") true true true ⟨[], []⟩
          "s" "See ![x](http://q/i.png)" false).1)
        "s" "See ![x](http://q/i.png)" false).1.session_images) ∧
    (processImages (fun _ => true) (fun _ => some "KX") true true true
        ((processImages (fun _ => true) (fun _ => some "KX") true true true ⟨[], []⟩
          "s" "See ![x](http://q/i.png)" false).1)
        "s" "See ![x](http://q/i.png)" false).2.2 = [] ∧
    (processImages (fun _ => true) (fun _ => some "KX") true true true
        ((processImages (fun _ => true) (fun _ => some "KX") true true true ⟨[], []⟩
          "s" "See ![x](http://q/i.png)" false).1)
        "s" "See ![x](http://q/i.png)" false).1.session_images =
      [("s", [⟨"http://q/i.png", "KX", "图片"⟩])] :=
  ⟨C3_ledger_urls_nodup (fun _ => true) (fun _ => some "KX") true true true
      ((processImages (fun _ => true) (fun _ => some "KX") true true true ⟨[], []⟩
        "s" "See ![x](http://q/i.png)" false).1)
      "s" "See ![x](http://q/i.png)" false (by decide),
   by decide, by decide⟩

/-- C5 counterexample: a session whose ledger entry exists but is empty (all
uploads failed) — the terminal-phase call does NOT remove the entry, so the
claim that the entry is removed regardless is false. -/
theorem C5_counterexample :
    dictGet ((processImages (fun _ => false) (fun _ => none) true true true
        ⟨[], [("s", [])]⟩ "s" "x" true).1.session_images) "s" = some [] := by decide

/-- C5 (amended): after a terminal-phase call whose ledger entry is
non-empty, the call produced the rendered output and the entry is removed,
so a second terminal-phase call finds no entry and is a no-op returning no
override; an empty ledger entry however survives the terminal phase. -/
theorem C5_drain_once (fetchOk : String → Bool) (platKey : String → Option String)
    (la : Bool) (st : PluginState) (sid content content2 : String)
    (imgs : List ImgInfo) (h : dictGet st.session_images sid = some imgs)
    (hne : imgs ≠ []) :
    (processImages fetchOk platKey la true true st sid content true).2.1 =
      some (terminalRender content imgs) ∧
    dictGet (processImages fetchOk platKey la true true st sid content
      true).1.session_images sid = none ∧
    processImages fetchOk platKey la true true
        (processImages fetchOk platKey la true true st sid content true).1 sid
        content2 true =
      ((processImages fetchOk platKey la true true st sid content true).1, none, []) := by
  rw [processImages_terminal_some fetchOk platKey la st sid content imgs h hne]
  refine ⟨rfl, dictGet_dictDel_self _ _, ?_⟩
  exact processImages_terminal_empty _ _ _ _ _ _ (Or.inl (dictGet_dictDel_self _ _))

/-- C5 witness: with a non-empty ledger the first terminal call drains the
entry. -/
theorem C5_witness :
    dictGet ((processImages (fun _ => false) (fun _ => none) true true true
        ⟨[], [("s", [⟨"u", "K1", "图片"⟩])]⟩ "s" "done" true).1.session_images) "s" =
      none :=
  (C5_drain_once (fun _ => false) (fun _ => none) true
    ⟨[], [("s", [⟨"u", "K1", "图片"⟩])]⟩ "s" "done" "x" [⟨"u", "K1", "图片"⟩]
    (by decide) (by decide)).2.1

/-- C6 counterexample: terminal phase with an absent ledger returns no
override at all — stray Markdown image syntax is NOT stripped, although
stripping would change this content. -/
theorem C6_counterexample :
    (processImages (fun _ => false) (fun _ => none) true true true ⟨[], []⟩ "s"
        "![a](http://x/y) hi" true).2.1 = none ∧
    imgSub "![a](http://x/y) hi" ≠ "![a](http://x/y) hi" := by decide

/-- C6 (amended): a terminal-phase call whose session ledger is empty or
absent returns the content exactly unchanged (no override, no stripping of
stray image syntax) and leaves the whole state untouched. -/
theorem C6_terminal_empty_passthrough (fetchOk : String → Bool)
    (platKey : String → Option String) (la : Bool) (st : PluginState)
    (sid content : String)
    (h : dictGet st.session_images sid = none ∨ dictGet st.session_images sid = some []) :
    processImages fetchOk platKey la true true st sid content true = (st, none, []) :=
  processImages_terminal_empty fetchOk platKey la st sid content h

/-- C6 witness: content "hello" with an empty ledger — output "hello"
(no override, state unchanged). -/
theorem C6_witness :
    processImages (fun _ => false) (fun _ => none) true true true ⟨[], []⟩ "s"
      "hello" true = (⟨[], []⟩, none, []) :=
  C6_terminal_empty_passthrough (fun _ => false) (fun _ => none) true ⟨[], []⟩ "s"
    "hello" (Or.inl rfl)

/-- C7 counterexample: interim content with blank-line runs but zero image
matches is returned with no override — the blank lines are NOT collapsed,
although collapsing and trimming would change this content. -/
theorem C7_counterexample :
    processImages (fun _ => false) (fun _ => none) true true true ⟨[], []⟩ "s"
        "a\n\n\nb" false = (⟨[], []⟩, none, []) ∧
    pyStrip (collapseBlank (imgSub "a\n\n\nb")) ≠ "a\n\n\nb" := by decide

/-- C7 (amended): an interim-phase call whose content has zero Markdown
image matches returns the input exactly unchanged (no override, hence no
blank-line collapsing and no trimming) and changes neither the session
ledger nor the URL cache. -/
theorem C7_interim_no_match_passthrough (fetchOk : String → Bool)
    (platKey : String → Option String) (la : Bool) (st : PluginState)
    (sid content : String) (h : imgFindall content = []) :
    processImages fetchOk platKey la true true st sid content false = (st, none, []) :=
  processImages_interim_nil fetchOk platKey la st sid content h

/-- C7 witness: image-free content passes through untouched. -/
theorem C7_witness :
    processImages (fun _ => false) (fun _ => none) true true true
      ⟨[("c", "K")], [("s2", [])]⟩ "s" "plain text\n\nmore" false =
      (⟨[("c", "K")], [("s2", [])]⟩, none, []) :=
  C7_interim_no_match_passthrough (fun _ => false) (fun _ => none) true
    ⟨[("c", "K")], [("s2", [])]⟩ "s" "plain text\n\nmore" (by decide)

/-- C8: when the download or the platform upload of a URL fails, the
uploader returns absent, the reply text is unaffected (identical to what
any other upload outcomes would produce — no error text is injected), and
no ledger entry is created for that URL. -/
theorem C8_upload_failure_degrades (fetchOk : String → Bool)
    (platKey : String → Option String) (la : Bool) (st : PluginState)
    (sid content url : String)
    (hfail : fetchOk url = false ∨ platKey url = none)
    (hc : dictGet st.image_cache url = none)
    (hl : url ∉ ((dictGet st.session_images sid).getD []).map ImgInfo.url) :
    (uploadImageToLark fetchOk platKey la st.image_cache url).1 = none ∧
    (∀ (fetchOk2 : String → Bool) (platKey2 : String → Option String) (la2 : Bool),
      (processImages fetchOk platKey la true true st sid content false).2.1 =
      (processImages fetchOk2 platKey2 la2 true true st sid content false).2.1) ∧
    url ∉ ((dictGet (processImages fetchOk platKey la true true st sid content
        false).1.session_images sid).getD []).map ImgInfo.url := by
  refine ⟨?_, ?_, ?_⟩
  · cases la with
    | false => simp [uploadImageToLark]
    | true => exact (uploadImageToLark_fail fetchOk platKey true st.image_cache hfail hc).1
  · intro fetchOk2 platKey2 la2
    cases hm : imgFindall content with
    | nil =>
      rw [processImages_interim_nil fetchOk platKey la st sid content hm,
        processImages_interim_nil fetchOk2 platKey2 la2 st sid content hm]
    | cons u us =>
      rw [processImages_interim_cons fetchOk platKey la st sid content hm,
        processImages_interim_cons fetchOk2 platKey2 la2 st sid content hm]
  · cases hm : imgFindall content with
    | nil =>
      rw [processImages_interim_nil fetchOk platKey la st sid content hm]
      exact hl
    | cons u us =>
      rw [processImages_interim_cons fetchOk platKey la st sid content hm]
      refine (uploadLoop_fail_preserved fetchOk platKey la sid hfail (u :: us)
        (interimInit st sid) ?_ ?_).2
      · rw [interimInit_image_cache]
        exact hc
      · rw [interimInit_ledger]
        exact hl

/-- C8 witness: a message with one failing and one succeeding image — the
failing URL is absent from the ledger while the succeeding one was
processed and recorded (processing continued past the failure). -/
theorem C8_witness :
    ("http://bad/i" ∉ ((dictGet (processImages (fun u => u == "http://good/j")
        (fun u => if u = "http://good/j" then some "KG" else none) true true true
        ⟨[], []⟩ "s" "![a](http://bad/i) and ![b](http://good/j)"
        false).1.session_images "s").getD []).map ImgInfo.url) ∧
    (processImages (fun u => u == "http://good/j")
        (fun u => if u = "http://good/j" then some "KG" else none) true true true
        ⟨[], []⟩ "s" "![a](http://bad/i) and ![b](http://good/j)"
        false).1.session_images = [("s", [⟨"http://good/j", "KG", "图片"⟩])] :=
  ⟨(C8_upload_failure_degrades (fun u => u == "http://good/j")
      (fun u => if u = "http://good/j" then some "KG" else none) true ⟨[], []⟩ "s"
      "![a](http://bad/i) and ![b](http://good/j)" "http://bad/i"
      (Or.inl (by decide)) (by decide) (by decide)).2.2,
   by decide⟩

/-- C9 counterexample: a card mapping exists for "m" but no sequence entry —
the hook sends the settings update with the default sequence 1 and the
sequence counter is NOT advanced (the adapter state is unchanged), against
the claim that the counter always advances by exactly one. -/
theorem C9_counterexample :
    on_responded_end true true (some "m") true ⟨[("m", "c")], []⟩ =
      (⟨[("m", "c")], []⟩, [EndEvent.settingsSent "c" 1]) := by decide

/-- C9 (amended): the finalize hook is a no-op when no card mapping exists;
when one exists it sends exactly one settings update carrying the stored
per-message sequence number (default 1) and afterwards advances the stored
counter by one only when a counter entry already exists — when none exists,
nothing is written back.  Its behavior does not depend on the outcome of
the settings call (failures are caught and only logged). -/
theorem C9_finalize_hook (ad : AdapterState) (mid card_id : String) (ok ok2 : Bool)
    (h : dictGet ad.message_id_to_card_id mid = some card_id) (hmid : mid ≠ "") :
    (on_responded_end true true (some mid) ok ad).2 =
      [EndEvent.settingsSent card_id ((dictGet ad.message_id_to_sequence mid).getD 1)] ∧
    (on_responded_end true true (some mid) ok ad).1.message_id_to_card_id =
      ad.message_id_to_card_id ∧
    (∀ n, dictGet ad.message_id_to_sequence mid = some n →
      (on_responded_end true true (some mid) ok ad).1.message_id_to_sequence =
        dictSet ad.message_id_to_sequence mid (n + 1)) ∧
    (dictGet ad.message_id_to_sequence mid = none →
      (on_responded_end true true (some mid) ok ad).1 = ad) ∧
    (∀ (ad2 : AdapterState) (mid2 : String) (okb : Bool),
      dictGet ad2.message_id_to_card_id mid2 = none →
      on_responded_end true true (some mid2) okb ad2 = (ad2, [])) ∧
    on_responded_end true true (some mid) ok ad =
      on_responded_end true true (some mid) ok2 ad := by
  refine ⟨?_, ?_, ?_, ?_, ?_, rfl⟩
  · cases hseq : dictGet ad.message_id_to_sequence mid <;>
      simp [on_responded_end, h, hmid, hseq]
  · cases hseq : dictGet ad.message_id_to_sequence mid <;>
      simp [on_responded_end, h, hmid, hseq]
  · intro n hseq
    simp [on_responded_end, h, hmid, hseq]
  · intro hseq
    simp [on_responded_end, h, hmid, hseq]
  · intro ad2 mid2 okb h2
    by_cases hm2 : mid2 = "" <;> simp [on_responded_end, hm2, h2]

/-- C9 witness: with both a card mapping and a sequence entry present, the
hook sends the stored sequence number. -/
theorem C9_witness :
    (on_responded_end true true (some "m") true ⟨[("m", "c")], [("m", 5)]⟩).2 =
      [EndEvent.settingsSent "c" 5] :=
  (C9_finalize_hook ⟨[("m", "c")], [("m", 5)]⟩ "m" "c" true false
    (by decide) (by decide)).1

/-- C10: every record in the session ledger carries the constant display
text "图片" (preserved by every engine call — the alt text of the source
Markdown is discarded), and therefore the terminal rendering emits exactly
lines of the form bang-bracket-图片-bracket-paren-key-paren. -/
theorem C10_hover_text_constant (fetchOk : String → Bool)
    (platKey : String → Option String) (la isLark streamMode : Bool)
    (st : PluginState) (sid content : String) (is_end : Bool)
    (h : hoverOk st.session_images) :
    hoverOk (processImages fetchOk platKey la isLark streamMode st sid content
      is_end).1.session_images ∧
    (∀ imgs, dictGet st.session_images sid = some imgs → imgs ≠ [] →
      (processImages fetchOk platKey la true true st sid content true).2.1 =
        some (if pyStrip (collapseBlank (imgSub content)) = ""
              then String.intercalate "\n" (imgs.map (fun i => "![图片](" ++ i.key ++ ")"))
              else pyStrip (collapseBlank (imgSub content)) ++ "\n\n"
                   ++ String.intercalate "\n"
                        (imgs.map (fun i => "![图片](" ++ i.key ++ ")")))) := by
  constructor
  · exact processImages_preserves_hoverOk fetchOk platKey la isLark streamMode st sid
      content is_end h
  · intro imgs hg hne
    rw [processImages_terminal_some fetchOk platKey la st sid content imgs hg hne]
    show some (terminalRender content imgs) = _
    rw [terminalRender_eq]
    have hmap : imgs.map renderImgLine = imgs.map (fun i => "![图片](" ++ i.key ++ ")") := by
      apply List.map_congr_left
      intro i hi
      have hhov : i.hover_text = "图片" := h (sid, imgs) (dictGet_mem hg) i hi
      simp [renderImgLine, hhov]
    rw [hmap]
    rfl

/-- C10 witness: a ledger built by an interim upload (alt text "cat"
discarded) renders with display text "图片". -/
theorem C10_witness :
    hoverOk ((processImages (fun _ => true) (fun _ => some "K9") true true true
        ⟨[], []⟩ "s" "hi ![cat](http://pix/c.png)" false).1.session_images) ∧
    (processImages (fun _ => true) (fun _ => some "K9") true true true
        ⟨[], [("s", [⟨"u", "K1", "图片"⟩])]⟩ "s" "hey" true).2.1 =
      some (if pyStrip (collapseBlank (imgSub "hey")) = ""
            then String.intercalate "\n"
                   ([⟨"u", "K1", "图片"⟩].map (fun i : ImgInfo => "![图片](" ++ i.key ++ ")"))
            else pyStrip (collapseBlank (imgSub "hey")) ++ "\n\n"
                 ++ String.intercalate "\n"
                      ([⟨"u", "K1", "图片"⟩].map
                        (fun i : ImgInfo => "![图片](" ++ i.key ++ ")"))) := by
  constructor
  · exact (C10_hover_text_constant (fun _ => true) (fun _ => some "K9") true true true
      ⟨[], []⟩ "s" "hi ![cat](http://pix/c.png)" false (by decide)).1
  · exact (C10_hover_text_constant (fun _ => true) (fun _ => some "K9") true true true
      ⟨[], [("s", [⟨"u", "K1", "图片"⟩])]⟩ "s" "hey" true (by decide)).2
      [⟨"u", "K1", "图片"⟩] (by decide) (by decide)

/-! ### Pinned evaluations of the embedded regex and cleaning semantics
(each checked against the behavior of the CPython `re` module on the
pattern of the source). -/

theorem imgSub_check1 : imgSub "Look ![cat](https://x.test/a.png) nice" = "Look  nice" := by
  decide

theorem imgFindall_check1 :
    imgFindall "x ![a](http://u) y ![b](https://v) z" = ["http://u", "https://v"] := by decide

theorem imgFindall_check2 : imgFindall "![a]b](http://x)" = ["http://x"] := by decide

theorem imgFindall_check3 : imgFindall "![a](ftp://x)" = [] := by decide

theorem imgFindall_check4 : imgFindall "![a\nb](http://x)" = [] := by decide

theorem imgFindall_check5 : imgFindall "![a](http://x" = [] := by decide

theorem imgFindall_check6 : imgFindall "![](http://x)" = ["http://x"] := by decide

theorem imgFindall_check7 : imgFindall "![a](http://)" = [] := by decide

theorem imgFindall_check8 : imgFindall "![a](https://u(v)w)" = ["https://u(v"] := by decide

theorem imgFindall_check9 :
    imgFindall "a ![x](http://q) ![x](http://q)" = ["http://q", "http://q"] := by decide

theorem collapseBlank_check1 : collapseBlank "a\n\n\nb" = "a\nb" := by decide

theorem collapseBlank_check2 : collapseBlank "a\n \n \nb" = "a\nb" := by decide

theorem collapseBlank_check3 : collapseBlank "a\nb" = "a\nb" := by decide

theorem pyStrip_check1 : pyStrip "  hi\n" = "hi" := by decide

theorem processImages_check1 :
    processImages (fun _ => true) (fun _ => some "K1") true true true ⟨[], []⟩
      "s1" "Look ![cat](https://x.test/a.png) nice" false =
    (⟨[("https://x.test/a.png", "K1")],
      [("s1", [⟨"https://x.test/a.png", "K1", "图片"⟩])]⟩,
     some "Look  nice",
     [UpEvent.fetch "https://x.test/a.png", UpEvent.platformUpload "https://x.test/a.png",
      UpEvent.cacheWrite "https://x.test/a.png" "K1"]) := by decide

theorem on_responded_end_check1 :
    on_responded_end true true (some "m") true ⟨[("m", "c")], [("m", 5)]⟩ =
    (⟨[("m", "c")], [("m", 6)]⟩, [EndEvent.settingsSent "c" 5]) := by decide
